import Mathlib

/-!
Verification of the dmpool payment core: the PPLNS distribution calculator
and validation simulator (src/pplns_validator/mod.rs) and the balance
ledger / payout lifecycle (src/payment/mod.rs), modelled as a shallow
embedding. Machine integers (u64, u128, u16) are modelled as Nat; where
the source relies on fixed-width truncation (u128 products, u64 wrapping
subtraction) the embedding carries an explicit modulus.
-/

namespace Dmpool

/-- 2 to the 64: one past the largest u64 value. -/
def U64 : Nat := 2 ^ 64

/-- 2 to the 128: one past the largest u128 value. -/
def U128 : Nat := 2 ^ 128

/-- Wrapping u64 subtraction, as released Rust computes `a - b` on u64.
For a, b < U64 with b ≤ a this is plain subtraction. -/
def wsub64 (a b : Nat) : Nat := (a + (U64 - b % U64)) % U64

/-- Share record from the external accounting crate
(p2poolv2_lib::accounting::simple_pplns::SimplePplnsShare), with the
fields the validator reads; difficulty and n_time are u64. -/
structure SimplePplnsShare where
  btcaddress : Option String
  workername : Option String
  user_id : Nat
  difficulty : Nat
  n_time : Nat
  job_id : String
  extranonce2 : String
  nonce : String
deriving DecidableEq, Repr

/-- PayoutCalculation from src/pplns_validator/mod.rs. -/
structure PayoutCalculation where
  address : String
  worker : String
  share_count : Nat
  total_difficulty : Nat
  payout_satoshis : Nat
  pplns_window_size : Nat
  block_reward_satoshis : Nat
  pool_fee_satoshis : Nat
  final_payout_satoshis : Nat
deriving DecidableEq, Repr

/-- PplnsValidationResult from src/pplns_validator/mod.rs; the
validated_at timestamp is abstracted to the constant 0. -/
structure PplnsValidationResult where
  valid : Bool
  total_shares : Nat
  unique_miners : Nat
  payouts : List PayoutCalculation
  total_payout_satoshis : Nat
  errors : List String
  warnings : List String
  validated_at : Nat
deriving DecidableEq, Repr

/-- PplnsSimulator configuration: block reward (u64), pool fee in basis
points (u16), window length in days (u64). -/
structure PplnsSimulator where
  block_reward_satoshis : Nat
  pool_fee_bps : Nat
  pplns_window_days : Nat
deriving DecidableEq, Repr

/-- Sum of the difficulties of the shares owned by one address
(the `total_difficulty` of PplnsSimulator::calculate_payout). -/
def minerDifficulty (shares : List SimplePplnsShare) (a : String) : Nat :=
  (((shares.filter (fun s => s.btcaddress == some a)).map (·.difficulty))).sum

/-- Sum of the difficulties of every share in the window
(the `window_difficulty` of PplnsSimulator::calculate_payout). -/
def windowDifficulty (shares : List SimplePplnsShare) : Nat :=
  ((shares.map (·.difficulty))).sum

/-- PplnsSimulator::calculate_payout. The u128 products carry an explicit
mod U128; u128 saturating_sub is Nat subtraction; the `as u64` casts after
`.min(u64::MAX as u128)` are `Nat.min` with U64 - 1. -/
def calculate_payout (sim : PplnsSimulator) (shares : List SimplePplnsShare)
    (miner_address : String) : Option PayoutCalculation :=
  if shares.isEmpty then none
  else
    let miner_shares := shares.filter (fun s => s.btcaddress == some miner_address)
    if miner_shares.isEmpty then none
    else
      let total_difficulty := minerDifficulty shares miner_address
      let window_difficulty := windowDifficulty shares
      if window_difficulty == 0 then none
      else
        let proportional_payout : Nat :=
          sim.block_reward_satoshis * total_difficulty % U128 / window_difficulty
        let pool_fee : Nat := proportional_payout * sim.pool_fee_bps % U128 / 10000
        let final_payout : Nat := min (proportional_payout - pool_fee) (U64 - 1)
        let pool_fee_u64 : Nat := min pool_fee (U64 - 1)
        some {
          address := miner_address
          worker := (miner_shares.head?.bind (·.workername)).getD "unknown"
          share_count := miner_shares.length
          total_difficulty := total_difficulty
          payout_satoshis := min proportional_payout (U64 - 1)
          pplns_window_size := shares.length
          block_reward_satoshis := sim.block_reward_satoshis
          pool_fee_satoshis := pool_fee_u64
          final_payout_satoshis := final_payout }

/-- The distinct miner addresses of a share window. The source collects
them in a HashSet; iteration order is abstracted to first occurrence
(the validation verdict is order independent). -/
def uniqueMiners (shares : List SimplePplnsShare) : List String :=
  shares.foldl (fun acc s =>
    match s.btcaddress with
    | some addr => if addr ∈ acc then acc else acc ++ [addr]
    | none => acc) []

/-- Wrapping u64 sum, as a u64 += accumulator computes in released Rust. -/
def wsum64 (l : List Nat) : Nat :=
  l.foldl (fun acc x => (acc + x) % U64) 0

/-- PplnsSimulator::simulate_payouts. The expected-total computation
multiplies two u64 values in u64, hence the mod U64 on the product, and
the total_payout accumulator is a wrapping u64 sum (wsum64). -/
def simulate_payouts (sim : PplnsSimulator) (shares : List SimplePplnsShare) :
    PplnsValidationResult :=
  let payouts := (uniqueMiners shares).filterMap (fun a => calculate_payout sim shares a)
  let total_payout := wsum64 ((payouts.map (·.final_payout_satoshis)))
  let expected_total_payout :=
    sim.block_reward_satoshis - sim.block_reward_satoshis * sim.pool_fee_bps % U64 / 10000
  let errors :=
    if total_payout > expected_total_payout then
      ["Total payouts (" ++ toString total_payout ++ ") exceed available reward ("
        ++ toString expected_total_payout ++ ")"]
    else []
  let warnings := payouts.filterMap (fun p =>
    if p.final_payout_satoshis == 0 && p.share_count > 0 then
      some ("Miner " ++ p.address ++ " has shares but zero payout (difficulty too low?)")
    else none)
  { valid := errors.isEmpty
    total_shares := shares.length
    unique_miners := (uniqueMiners shares).length
    payouts := payouts
    total_payout_satoshis := total_payout
    errors := errors
    warnings := warnings
    validated_at := 0 }

/-- PayoutStatus from src/payment/mod.rs. -/
inductive PayoutStatus
  | Pending
  | Broadcast
  | Confirmed
  | Failed
deriving DecidableEq, Repr

/-- Payout record from src/payment/mod.rs. The uuid id is modelled as a
Nat drawn from a fresh-id counter; the created_at and broadcast_at
timestamps are abstracted to the constant 0. -/
structure Payout where
  id : Nat
  address : String
  amount_satoshis : Nat
  txid : Option String
  block_height : Option Nat
  status : PayoutStatus
  created_at : Nat
  broadcast_at : Option Nat
  confirmations : Nat
  error : Option String
deriving DecidableEq, Repr

/-- MinerBalance from src/payment/mod.rs; updated_at abstracted to 0. -/
structure MinerBalance where
  address : String
  balance_satoshis : Nat
  total_earned_satoshis : Nat
  total_paid_satoshis : Nat
  updated_at : Nat
deriving DecidableEq, Repr

/-- PaymentConfig from src/payment/mod.rs (the bitcoin RPC endpoint
fields are connection data for the external client and are omitted). -/
structure PaymentConfig where
  min_payout_satoshis : Nat
  manual_payout_satoshis : Nat
  lightning_payout_satoshis : Nat
  required_confirmations : Nat
  pool_fee_bps : Nat
  donation_bps : Nat
  auto_payout_enabled : Bool
  auto_payout_interval_hours : Nat
deriving Repr

/-- The Default impl for PaymentConfig. -/
def PaymentConfig.default : PaymentConfig where
  min_payout_satoshis := 1000000
  manual_payout_satoshis := 100000
  lightning_payout_satoshis := 10000
  required_confirmations := 6
  pool_fee_bps := 100
  donation_bps := 0
  auto_payout_enabled := false
  auto_payout_interval_hours := 24

/-- The mutable state of PaymentManager: the address-to-balance map
(a HashMap, modelled as a lookup function), the payout history vector,
and a fresh-id counter standing for uuid generation. -/
structure PMState where
  balances : String → Option MinerBalance
  payouts : List Payout
  next_id : Nat

/-- The `max_payouts` bound fixed in PaymentManager::new. -/
def max_payouts : Nat := 10000

/-- The empty manager state built by PaymentManager::new. -/
def initialState : PMState where
  balances := fun _ => none
  payouts := []
  next_id := 0

/-- Point update of the balance map (HashMap insert at a key). -/
def setBalance (f : String → Option MinerBalance) (a : String) (b : MinerBalance) :
    String → Option MinerBalance :=
  fun x => if x = a then some b else f x

/-- The distinct error outcomes of the payment operations; each
constructor stands for one anyhow error message of the source:
noBalanceFound for "No balance found for address ...", insufficientBalance
for "Insufficient balance: requested ..., available ...", payoutNotFound
for "Payout ... not found", payoutNotPending for "Payout ... is not
pending", noUnspentOutputs for "No unspent outputs available", dustAmount
for "Amount too small after fees", signingIncomplete for "Transaction
signing incomplete", rpcError for an error propagated from a bitcoin RPC
call. -/
inductive PMError
  | noBalanceFound (address : String)
  | insufficientBalance (requested available : Nat)
  | payoutNotFound (payout_id : Nat)
  | payoutNotPending (payout_id : Nat)
  | noUnspentOutputs
  | dustAmount
  | signingIncomplete
  | rpcError (msg : String)
deriving DecidableEq, Repr

/-- PaymentManager::add_earnings: insert a zeroed record if the address
is new, then add the amount to balance_satoshis and
total_earned_satoshis. The += is u64 addition, wrapping at U64 in
released Rust, hence the explicit mod. block_height is only logged. -/
def add_earnings (st : PMState) (address : String) (amount_satoshis : Nat)
    (block_height : Nat) : PMState :=
  let _ := block_height
  let balance0 := match st.balances address with
    | some b => b
    | none => { address := address, balance_satoshis := 0, total_earned_satoshis := 0,
                total_paid_satoshis := 0, updated_at := 0 : MinerBalance }
  let balance := { balance0 with
    balance_satoshis := (balance0.balance_satoshis + amount_satoshis) % U64
    total_earned_satoshis := (balance0.total_earned_satoshis + amount_satoshis) % U64
    updated_at := 0 }
  { st with balances := setBalance st.balances address balance }

/-- The Payout record built by PaymentManager::create_payout. -/
def mkPendingPayout (id : Nat) (address : String) (amount_satoshis : Nat) : Payout where
  id := id
  address := address
  amount_satoshis := amount_satoshis
  txid := none
  block_height := none
  status := PayoutStatus.Pending
  created_at := 0
  broadcast_at := none
  confirmations := 0
  error := none

/-- PaymentManager::create_payout: balance check, debit, append to the
payout list, trim the oldest records past max_payouts
(Vec::drain(0..remove_count) drops from the front). Error paths return
before any state change; the source re-locks for the debit and the
re-lookup necessarily finds the record read above. -/
def create_payout (st : PMState) (address : String) (amount_satoshis : Nat) :
    Except PMError (Payout × PMState) :=
  match st.balances address with
  | none => Except.error (PMError.noBalanceFound address)
  | some balance =>
    if balance.balance_satoshis < amount_satoshis then
      Except.error (PMError.insufficientBalance amount_satoshis balance.balance_satoshis)
    else
      let payout := mkPendingPayout st.next_id address amount_satoshis
      let balances := setBalance st.balances address
        { balance with balance_satoshis := balance.balance_satoshis - amount_satoshis
                       updated_at := 0 }
      let pushed := st.payouts ++ [payout]
      let payouts :=
        if pushed.length > max_payouts then pushed.drop (pushed.length - max_payouts)
        else pushed
      Except.ok (payout, { balances := balances, payouts := payouts, next_id := st.next_id + 1 })

/-- Lookup of a payout by id: payouts.iter().find(|p| p.id == payout_id). -/
def findPayout (payouts : List Payout) (pid : Nat) : Option Payout :=
  payouts.find? (fun p => p.id == pid)

/-- In-place replacement of the first payout with the given id, as
payouts.iter_mut().find(|p| p.id == payout_id) assignments do. -/
def updatePayout (payouts : List Payout) (pid : Nat) (new : Payout) : List Payout :=
  match payouts with
  | [] => []
  | p :: rest => if p.id == pid then new :: rest else p :: updatePayout rest pid new

/-- Unspent output returned by list_unspent (src/bitcoin/mod.rs
UnspentOutput). The f64 BTC amount is modelled directly as the satoshi
value the source derives by (amount * 100_000_000.0) as u64. -/
structure UnspentOutput where
  txid : String
  vout : Nat
  address : Option String
  amount_sats : Nat
deriving DecidableEq, Repr

/-- SignedTransaction from src/bitcoin/mod.rs. -/
structure SignedTransaction where
  hex : String
  complete : Bool
deriving DecidableEq, Repr

/-- The responses of the external bitcoin node for one
broadcast_payout call: outcome of list_unspent, create_raw_transaction,
sign_raw_transaction_with_wallet and send_raw_transaction. -/
structure GatewayEnv where
  list_unspent : Except String (List UnspentOutput)
  create_raw_transaction : Except String String
  sign_raw_transaction : Except String SignedTransaction
  send_raw_transaction : Except String String

/-- PaymentManager::broadcast_payout. Returns the call result together
with the state after the call: every early-return error keeps the state,
except the empty-unspent branch, which first rewrites the stored payout
to Failed with the error message. The change computation is u64
subtraction (wrapping in released Rust), the fee estimate is
config.donation_bps, and actual_change uses saturating_sub. -/
def broadcast_payout (cfg : PaymentConfig) (st : PMState) (payout_id : Nat)
    (env : GatewayEnv) : Except PMError Payout × PMState :=
  match findPayout st.payouts payout_id with
  | none => (Except.error (PMError.payoutNotFound payout_id), st)
  | some payout =>
    if payout.status ≠ PayoutStatus.Pending then
      (Except.error (PMError.payoutNotPending payout_id), st)
    else
      match env.list_unspent with
      | Except.error e => (Except.error (PMError.rpcError e), st)
      | Except.ok [] =>
        let failed := { payout with
          status := PayoutStatus.Failed
          error := some "No unspent outputs available in wallet" }
        (Except.error PMError.noUnspentOutputs,
          { st with payouts := updatePayout st.payouts payout_id failed })
      | Except.ok (utxo :: _) =>
        let total_input := utxo.amount_sats
        let change_satoshis := wsub64 total_input payout.amount_satoshis
        let fee_estimate := cfg.donation_bps
        let actual_change := change_satoshis - fee_estimate
        if actual_change < 546 then (Except.error PMError.dustAmount, st)
        else
          match env.create_raw_transaction with
          | Except.error e => (Except.error (PMError.rpcError e), st)
          | Except.ok _ =>
            match env.sign_raw_transaction with
            | Except.error e => (Except.error (PMError.rpcError e), st)
            | Except.ok signed =>
              if signed.complete then
                match env.send_raw_transaction with
                | Except.error e => (Except.error (PMError.rpcError e), st)
                | Except.ok txid =>
                  let updated := { payout with
                    txid := some txid
                    status := PayoutStatus.Broadcast
                    broadcast_at := some 0 }
                  (Except.ok updated,
                    { st with payouts := updatePayout st.payouts payout_id updated })
              else (Except.error PMError.signingIncomplete, st)

/-- PaymentManager::confirm_payout: if a payout with the id exists, set
txid, block_height and confirmations; when confirmations reach the
configured threshold also set the status to Confirmed and add the amount
to the address's total_paid_satoshis. -/
def confirm_payout (cfg : PaymentConfig) (st : PMState) (payout_id : Nat)
    (txid : String) (block_height : Nat) (confirmations : Nat) : PMState :=
  match findPayout st.payouts payout_id with
  | none => st
  | some payout =>
    let updated0 := { payout with
      txid := some txid
      block_height := some block_height
      confirmations := confirmations }
    if confirmations ≥ cfg.required_confirmations then
      let updated := { updated0 with status := PayoutStatus.Confirmed }
      let balances := match st.balances payout.address with
        | some b => setBalance st.balances payout.address
            { b with total_paid_satoshis := b.total_paid_satoshis + payout.amount_satoshis }
        | none => st.balances
      { st with payouts := updatePayout st.payouts payout_id updated, balances := balances }
    else
      { st with payouts := updatePayout st.payouts payout_id updated0 }

/-- An earnings or payout-creation call in a ledger history. -/
inductive LedgerOp
  | earn (address : String) (amount : Nat) (block_height : Nat)
  | payout (address : String) (amount : Nat)
deriving DecidableEq, Repr

/-- Apply one ledger call; a failed create_payout leaves the state
unchanged (the source returns the error before mutating). -/
def runStep (st : PMState) : LedgerOp → PMState
  | LedgerOp.earn a amt h => add_earnings st a amt h
  | LedgerOp.payout a amt =>
    match create_payout st a amt with
    | Except.ok (_, st2) => st2
    | Except.error _ => st

/-- Run a ledger history from the empty manager state. -/
def runOps (ops : List LedgerOp) : PMState :=
  ops.foldl runStep initialState

/-- Statuses counted by the conservation invariant. -/
def statusCounted : PayoutStatus → Bool
  | PayoutStatus.Pending => true
  | PayoutStatus.Broadcast => true
  | PayoutStatus.Confirmed => true
  | PayoutStatus.Failed => false

/-- Sum of amount_satoshis over the records of one address whose status
is Pending, Broadcast or Confirmed. -/
def pendingAmounts (l : List Payout) (a : String) : Nat :=
  (((l.filter (fun p => p.address == a && statusCounted p.status)).map
    (·.amount_satoshis))).sum

/-- The pending-payout sum of an address in a manager state. -/
def pendingSum (st : PMState) (a : String) : Nat := pendingAmounts st.payouts a

/-- Current balance of an address (0 when no record exists). -/
def balanceOf (st : PMState) (a : String) : Nat :=
  match st.balances a with
  | some b => b.balance_satoshis
  | none => 0

/-- Lifetime earnings of an address (0 when no record exists). -/
def earnedOf (st : PMState) (a : String) : Nat :=
  match st.balances a with
  | some b => b.total_earned_satoshis
  | none => 0

/-- Lifetime paid-out total of an address (0 when no record exists). -/
def paidOf (st : PMState) (a : String) : Nat :=
  match st.balances a with
  | some b => b.total_paid_satoshis
  | none => 0

/-- The conservation equation exactly as the specification states it:
balance equals total earned minus the stored pending-payout sum. -/
def conservesClaim (st : PMState) (a : String) : Prop :=
  balanceOf st a = earnedOf st a - pendingSum st a

/-- Number of create_payout calls in a ledger history. -/
def countPayoutOps (ops : List LedgerOp) : Nat :=
  (ops.filter (fun op => match op with
    | LedgerOp.payout _ _ => true
    | _ => false)).length

/-- Total amount earned across a ledger history (all addresses). -/
def earnSum (ops : List LedgerOp) : Nat :=
  ((ops.map (fun op => match op with
    | LedgerOp.earn _ amt _ => amt
    | LedgerOp.payout _ _ => 0))).sum

/-! Concrete fixtures used by witnesses, counterexamples and failing-input
evaluations. -/

/-- The share window of the proportionality test in
src/pplns_validator/mod.rs: difficulties 1000 and 2000 for X, 1500 for Y,
500 for Z. -/
def sharesT : List SimplePplnsShare :=
  [ { btcaddress := some "X", workername := some "w", user_id := 1, difficulty := 1000,
      n_time := 1000, job_id := "j1", extranonce2 := "00", nonce := "n1" },
    { btcaddress := some "X", workername := some "w", user_id := 1, difficulty := 2000,
      n_time := 2000, job_id := "j2", extranonce2 := "00", nonce := "n2" },
    { btcaddress := some "Y", workername := some "w", user_id := 2, difficulty := 1500,
      n_time := 3000, job_id := "j3", extranonce2 := "00", nonce := "n3" },
    { btcaddress := some "Z", workername := some "w", user_id := 3, difficulty := 500,
      n_time := 4000, job_id := "j4", extranonce2 := "00", nonce := "n4" } ]

/-- The simulator of the proportionality test: 1 BTC reward, 1 percent
fee, 7-day window. -/
def simT : PplnsSimulator :=
  { block_reward_satoshis := 100000000, pool_fee_bps := 100, pplns_window_days := 7 }

/-- The balance record of the fixture states: 50 satoshis available. -/
def balT : MinerBalance :=
  { address := "m", balance_satoshis := 50, total_earned_satoshis := 50,
    total_paid_satoshis := 0, updated_at := 0 }

/-- A manager state holding one balance record of 50 satoshis for
address m and no payouts. -/
def stT : PMState :=
  { balances := fun x => if x = "m" then some balT else none
    payouts := []
    next_id := 0 }

/-- A broadcast payout of 30 satoshis for address m, id 1. -/
def pT : Payout := { mkPendingPayout 1 "m" 30 with status := PayoutStatus.Broadcast }

/-- State for the confirmation claims: one Broadcast payout of 30
satoshis for address m, whose total_paid is still 0. -/
def stT2 : PMState := { stT with payouts := [pT], next_id := 2 }

/-- State with the payout of stT2 already Failed. -/
def stT2f : PMState := { stT with payouts := [{ pT with status := PayoutStatus.Failed }], next_id := 2 }

/-- State for the broadcast claims: one Pending payout of 30 satoshis
for address m, id 1. -/
def stT3 : PMState := { stT with payouts := [mkPendingPayout 1 "m" 30], next_id := 2 }

/-- Gateway responses whose wallet signing reports complete = false,
with one spendable output of 10000 satoshis. -/
def envSignIncomplete : GatewayEnv :=
  { list_unspent := Except.ok [{ txid := "u", vout := 0, address := some "pool", amount_sats := 10000 }]
    create_raw_transaction := Except.ok "raw"
    sign_raw_transaction := Except.ok { hex := "signed", complete := false }
    send_raw_transaction := Except.ok "txid1" }

/-- Gateway responses whose wallet has no unspent outputs. -/
def envNoUnspent : GatewayEnv :=
  { list_unspent := Except.ok []
    create_raw_transaction := Except.ok "raw"
    sign_raw_transaction := Except.ok { hex := "signed", complete := true }
    send_raw_transaction := Except.ok "txid1" }

/-- The fresh payout of the C10 witness. -/
def pW10 : Payout := mkPendingPayout 0 "m" 30

/-- The state after the C10 witness create_payout call. -/
def stW10 : PMState :=
  { balances := setBalance stT.balances "m"
      { address := "m", balance_satoshis := 20, total_earned_satoshis := 50,
        total_paid_satoshis := 0, updated_at := 0 }
    payouts := [pW10]
    next_id := 1 }

/-- Per-address additive form of the conservation invariant. For missing
balance records both sides read 0, so it also says that an address
without a record has no counted payouts. -/
def ConsInv (st : PMState) : Prop :=
  ∀ a, balanceOf st a + pendingSum st a = earnedOf st a

/-- A ledger history that trims the payout list: one earning of 10001
satoshis followed by 10001 one-satoshi payout creations. -/
def drainOps : List LedgerOp :=
  LedgerOp.earn "a" 10001 0 :: List.replicate 10001 (LedgerOp.payout "a" 1)

/-- The state after the earning of drainOps and k of its payout calls. -/
def drainState (k : Nat) : PMState :=
  (List.replicate k (LedgerOp.payout "a" 1)).foldl runStep
    (runStep initialState (LedgerOp.earn "a" 10001 0))

/-- The Failed rewrite broadcast_payout applies to the stored record in
the empty-unspent branch. -/
def markNoUnspentFailed (p : Payout) : Payout :=
  { p with status := PayoutStatus.Failed,
           error := some "No unspent outputs available in wallet" }

/-- The balance record of address a after the earning of drainOps and k
of its payout calls. -/
def drainBalance (k : Nat) : MinerBalance :=
  { address := "a", balance_satoshis := 10001 - k, total_earned_satoshis := 10001,
    total_paid_satoshis := 0, updated_at := 0 }

/-- A short history for the conservation witness: earn 100, pay out 30. -/
def opsW : List LedgerOp :=
  [LedgerOp.earn "a" 100 0, LedgerOp.payout "a" 30]

/-- A window owned by a single address with the largest u64 difficulty. -/
def sharesSolo : List SimplePplnsShare :=
  [ { btcaddress := some "solo", workername := some "w", user_id := 1,
      difficulty := 18446744073709551615, n_time := 1000, job_id := "j",
      extranonce2 := "00", nonce := "n" } ]

/-! Claim theorems. -/

/-- Each address owns a sub-multiset of the window, so its difficulty
total is at most the window difficulty total. -/
theorem minerDifficulty_le_window (shares : List SimplePplnsShare) (a : String) :
    minerDifficulty shares a ≤ windowDifficulty shares := by
  unfold minerDifficulty windowDifficulty
  exact List.Sublist.sum_le_sum
    (List.Sublist.map _ (List.filter_sublist shares)) (by intro x hx; exact Nat.zero_le x)

/-- A positive difficulty total forces at least one share in the list. -/
theorem filter_ne_nil_of_pos {shares : List SimplePplnsShare} {a : String}
    (h : 0 < minerDifficulty shares a) :
    shares.filter (fun s => s.btcaddress == some a) ≠ [] := by
  intro hnil
  unfold minerDifficulty at h
  rw [hnil] at h
  simp at h

/-- Claim C1: when the ledger holds a balance record for the address
whose balance is strictly below the requested amount, create_payout
fails with the insufficient-balance error, and the ledger step leaves
the state (balance record and payout list) unchanged. -/
theorem create_payout_insufficient (st : PMState) (a : String) (amt : Nat)
    (bal : MinerBalance) (hb : st.balances a = some bal)
    (hlt : bal.balance_satoshis < amt) :
    create_payout st a amt = Except.error (PMError.insufficientBalance amt bal.balance_satoshis) ∧
    runStep st (LedgerOp.payout a amt) = st := by
  have h1 : create_payout st a amt
      = Except.error (PMError.insufficientBalance amt bal.balance_satoshis) := by
    unfold create_payout
    rw [hb]
    simp [hlt]
  refine ⟨h1, ?_⟩
  show (match create_payout st a amt with
    | Except.ok (_, st2) => st2
    | Except.error _ => st) = st
  rw [h1]

/-- Witness for claim C1 at a concrete state: balance 50, request 100. -/
theorem create_payout_insufficient_witness :
    create_payout stT "m" 100 = Except.error (PMError.insufficientBalance 100 50) ∧
    runStep stT (LedgerOp.payout "m" 100) = stT :=
  create_payout_insufficient stT "m" 100 balT (by rfl) (by decide)

/-- Claim C5: calculate_payout returns none whenever the share set is
empty, or the address owns no share, or the window difficulty is zero. -/
theorem calculate_payout_undefined (sim : PplnsSimulator)
    (shares : List SimplePplnsShare) (a : String)
    (h : shares = [] ∨ (∀ s ∈ shares, s.btcaddress ≠ some a) ∨
      windowDifficulty shares = 0) :
    calculate_payout sim shares a = none := by
  rcases h with h | h | h
  · subst h; rfl
  · have hf : shares.filter (fun s => s.btcaddress == some a) = [] := by
      rw [List.filter_eq_nil_iff]
      intro s hs
      simpa using h s hs
    unfold calculate_payout
    simp [hf]
  · unfold calculate_payout
    simp [h]

/-- Witness for claim C5 at the empty share set. -/
theorem calculate_payout_undefined_witness :
    calculate_payout simT [] "X" = none :=
  calculate_payout_undefined simT [] "X" (Or.inl rfl)

/-- Claim C6 failing input: two confirm_payout calls on the same
Broadcast payout of 30 satoshis, both with confirmations 6 at threshold
6, leave it Confirmed but raise total_paid_satoshis to 60, twice the
amount: the second call increments again. -/
theorem confirm_payout_double_pays :
    (findPayout stT2.payouts 1).map (fun p => p.amount_satoshis) = some 30 ∧
    paidOf stT2 "m" = 0 ∧
    (let st1 := confirm_payout PaymentConfig.default stT2 1 "t" 5 6
     let st2 := confirm_payout PaymentConfig.default st1 1 "t" 5 6
     paidOf st2 "m" = 60 ∧
       (findPayout st2.payouts 1).map (fun p => p.status) = some PayoutStatus.Confirmed) := by
  decide

/-- Claim C7 failing input: confirm_payout on a payout whose status is
the terminal Failed, with confirmations at the threshold, moves it to
Confirmed (and pays it out): the lifecycle is not forward-only in the
code. -/
theorem confirm_payout_revives_failed :
    (findPayout stT2f.payouts 1).map (fun p => p.status) = some PayoutStatus.Failed ∧
    (let st1 := confirm_payout PaymentConfig.default stT2f 1 "t" 5 6
     (findPayout st1.payouts 1).map (fun p => p.status) = some PayoutStatus.Confirmed ∧
       paidOf st1 "m" = 30) := by
  decide

/-- Inversion of a successful create_payout: the balance record existed
and covered the amount, the returned payout is the fresh Pending record,
the balance was debited, and the payout list is the pushed list trimmed
from the front past max_payouts. -/
theorem create_payout_ok_inv {st : PMState} {a : String} {amt : Nat}
    {p : Payout} {st2 : PMState}
    (h : create_payout st a amt = Except.ok (p, st2)) :
    ∃ bal, st.balances a = some bal ∧ amt ≤ bal.balance_satoshis ∧
      p = mkPendingPayout st.next_id a amt ∧
      st2.balances = setBalance st.balances a
        { bal with balance_satoshis := bal.balance_satoshis - amt, updated_at := 0 } ∧
      st2.payouts = (if (st.payouts ++ [p]).length > max_payouts
        then (st.payouts ++ [p]).drop ((st.payouts ++ [p]).length - max_payouts)
        else st.payouts ++ [p]) ∧
      st2.next_id = st.next_id + 1 := by
  unfold create_payout at h
  cases hb : st.balances a with
  | none => rw [hb] at h; exact absurd h (by simp)
  | some bal =>
    rw [hb] at h
    by_cases hlt : bal.balance_satoshis < amt
    · simp [hlt] at h
    · simp only [if_neg hlt, Except.ok.injEq, Prod.mk.injEq] at h
      obtain ⟨hp, hst⟩ := h
      subst hp
      subst hst
      exact ⟨bal, rfl, Nat.le_of_not_lt hlt, rfl, rfl, rfl, rfl⟩

/-- Claim C10: after a successful create_payout the stored payout list
has at most 10000 records, and it is the pushed list with the oldest
records dropped from the front when the push passed 10000. -/
theorem create_payout_caps_history (st : PMState) (a : String) (amt : Nat)
    (p : Payout) (st2 : PMState)
    (h : create_payout st a amt = Except.ok (p, st2)) :
    st2.payouts.length ≤ max_payouts ∧
    st2.payouts = (st.payouts ++ [p]).drop (st.payouts.length + 1 - max_payouts) := by
  obtain ⟨bal, _, _, _, _, hpl, _⟩ := create_payout_ok_inv h
  have hlen : (st.payouts ++ [p]).length = st.payouts.length + 1 := by
    simp
  rw [hpl, hlen]
  by_cases hgt : st.payouts.length + 1 > max_payouts
  · rw [if_pos hgt]
    constructor
    · rw [List.length_drop, hlen]
      omega
    · rfl
  · rw [if_neg hgt]
    constructor
    · simpa [hlen] using Nat.le_of_not_lt hgt
    · have h0 : st.payouts.length + 1 - max_payouts = 0 := by omega
      rw [h0, List.drop_zero]

/-- Exact description of a defined calculate_payout result under the u64
typing bounds and the documented fee range: no u128 product wraps at
U128 and no result field is truncated at the u64 ceiling. -/
theorem calculate_payout_spec (sim : PplnsSimulator) (shares : List SimplePplnsShare)
    (a : String) (hfee : sim.pool_fee_bps ≤ 10000)
    (hR : sim.block_reward_satoshis < U64)
    (hwd : 0 < windowDifficulty shares) (hwd64 : windowDifficulty shares < U64)
    (hmne : shares.filter (fun s => s.btcaddress == some a) ≠ []) :
    calculate_payout sim shares a = some
      { address := a
        worker := (((shares.filter (fun s => s.btcaddress == some a)).head?.bind
          (·.workername))).getD "unknown"
        share_count := (shares.filter (fun s => s.btcaddress == some a)).length
        total_difficulty := minerDifficulty shares a
        payout_satoshis :=
          sim.block_reward_satoshis * minerDifficulty shares a / windowDifficulty shares
        pplns_window_size := shares.length
        block_reward_satoshis := sim.block_reward_satoshis
        pool_fee_satoshis :=
          (sim.block_reward_satoshis * minerDifficulty shares a / windowDifficulty shares)
            * sim.pool_fee_bps / 10000
        final_payout_satoshis :=
          sim.block_reward_satoshis * minerDifficulty shares a / windowDifficulty shares
            - (sim.block_reward_satoshis * minerDifficulty shares a / windowDifficulty shares)
              * sim.pool_fee_bps / 10000 } := by
  have hne : shares.isEmpty = false := by
    cases shares with
    | nil => simp [windowDifficulty] at hwd
    | cons _ _ => rfl
  have hmnee : (shares.filter (fun s => s.btcaddress == some a)).isEmpty = false := by
    cases hfil : shares.filter (fun s => s.btcaddress == some a) with
    | nil => exact absurd hfil hmne
    | cons _ _ => rfl
  have hwd0 : (windowDifficulty shares == 0) = false := by
    simp [Nat.pos_iff_ne_zero.mp hwd]
  have htd : minerDifficulty shares a ≤ windowDifficulty shares :=
    minerDifficulty_le_window shares a
  have htd64 : minerDifficulty shares a < U64 := lt_of_le_of_lt htd hwd64
  have hU : U64 * U64 = U128 := by norm_num [U64, U128]
  have hprod : sim.block_reward_satoshis * minerDifficulty shares a < U128 := by
    rw [← hU]
    exact mul_lt_mul'' hR htd64 (Nat.zero_le _) (Nat.zero_le _)
  have hprople : sim.block_reward_satoshis * minerDifficulty shares a / windowDifficulty shares
      ≤ sim.block_reward_satoshis := by
    calc sim.block_reward_satoshis * minerDifficulty shares a / windowDifficulty shares
        ≤ sim.block_reward_satoshis * windowDifficulty shares / windowDifficulty shares :=
          Nat.div_le_div_right (Nat.mul_le_mul_left _ htd)
      _ = sim.block_reward_satoshis := Nat.mul_div_cancel _ hwd
  have hprop64 : sim.block_reward_satoshis * minerDifficulty shares a / windowDifficulty shares
      < U64 := lt_of_le_of_lt hprople hR
  have hfee64 : sim.pool_fee_bps < U64 := lt_of_le_of_lt hfee (by norm_num [U64])
  have hfeeprod : (sim.block_reward_satoshis * minerDifficulty shares a / windowDifficulty shares)
      * sim.pool_fee_bps < U128 := by
    rw [← hU]
    exact mul_lt_mul'' hprop64 hfee64 (Nat.zero_le _) (Nat.zero_le _)
  have hpfle : (sim.block_reward_satoshis * minerDifficulty shares a / windowDifficulty shares)
      * sim.pool_fee_bps / 10000
      ≤ sim.block_reward_satoshis * minerDifficulty shares a / windowDifficulty shares := by
    calc (sim.block_reward_satoshis * minerDifficulty shares a / windowDifficulty shares)
        * sim.pool_fee_bps / 10000
        ≤ (sim.block_reward_satoshis * minerDifficulty shares a / windowDifficulty shares)
          * 10000 / 10000 := Nat.div_le_div_right (Nat.mul_le_mul_left _ hfee)
      _ = sim.block_reward_satoshis * minerDifficulty shares a / windowDifficulty shares :=
          Nat.mul_div_cancel _ (by norm_num)
  unfold calculate_payout
  simp only [hne, Bool.false_eq_true, if_false, hmnee, hwd0]
  rw [Nat.mod_eq_of_lt hprod, Nat.mod_eq_of_lt hfeeprod,
    Nat.min_eq_left (by omega : sim.block_reward_satoshis * minerDifficulty shares a
      / windowDifficulty shares ≤ U64 - 1),
    Nat.min_eq_left (by omega : (sim.block_reward_satoshis * minerDifficulty shares a
      / windowDifficulty shares) * sim.pool_fee_bps / 10000 ≤ U64 - 1),
    Nat.min_eq_left (by omega : sim.block_reward_satoshis * minerDifficulty shares a
      / windowDifficulty shares - (sim.block_reward_satoshis * minerDifficulty shares a
      / windowDifficulty shares) * sim.pool_fee_bps / 10000 ≤ U64 - 1)]

/-- Claim C3: with a positive window difficulty and an address owning at
least one share, calculate_payout returns the proportional floor
division of the reward, the fee as floor of proportional times fee_bps
over 10000, and the final payout as their difference. Fee in the
documented 0 to 10000 bps range; u64 bounds on reward and window
difficulty reflect the source types. -/
theorem calculate_payout_proportional (sim : PplnsSimulator)
    (shares : List SimplePplnsShare) (a : String)
    (hfee : sim.pool_fee_bps ≤ 10000) (hR : sim.block_reward_satoshis < U64)
    (hwd : 0 < windowDifficulty shares) (hwd64 : windowDifficulty shares < U64)
    (hown : ∃ s ∈ shares, s.btcaddress = some a) :
    ∃ c, calculate_payout sim shares a = some c ∧
      c.total_difficulty = minerDifficulty shares a ∧
      c.payout_satoshis
        = sim.block_reward_satoshis * minerDifficulty shares a / windowDifficulty shares ∧
      c.pool_fee_satoshis = c.payout_satoshis * sim.pool_fee_bps / 10000 ∧
      c.final_payout_satoshis = c.payout_satoshis - c.pool_fee_satoshis := by
  have hmne : shares.filter (fun s => s.btcaddress == some a) ≠ [] := by
    obtain ⟨s0, hs0, ha⟩ := hown
    intro hnil
    have hm : s0 ∈ shares.filter (fun s => s.btcaddress == some a) :=
      List.mem_filter.mpr ⟨hs0, by simp [ha]⟩
    rw [hnil] at hm
    cases hm
  exact ⟨_, calculate_payout_spec sim shares a hfee hR hwd hwd64 hmne, rfl, rfl, rfl, rfl⟩

/-- Witness for claim C3: the documented example window (X owns 1000 and
2000, Y 1500, Z 500; reward 100000000; fee 100 bps) gives X difficulty
3000, proportional 60000000, fee 600000, final 59400000. -/
theorem calculate_payout_proportional_witness :
    0 < windowDifficulty sharesT ∧
    ∃ c, calculate_payout simT sharesT "X" = some c ∧
      c.total_difficulty = 3000 ∧ c.payout_satoshis = 60000000 ∧
      c.pool_fee_satoshis = 600000 ∧ c.final_payout_satoshis = 59400000 := by
  refine ⟨by decide, ?_⟩
  obtain ⟨c, hc, h1, h2, h3, h4⟩ := calculate_payout_proportional simT sharesT "X"
    (by decide) (by decide) (by decide) (by decide) (by decide)
  refine ⟨c, hc, ?_, ?_, ?_, ?_⟩
  · rw [h1]; decide
  · rw [h2]; decide
  · rw [h3, h2]; decide
  · rw [h4, h3, h2]; decide

/-- Claim C4: at reward 2100000000000000 satoshis (21M BTC), an address
whose difficulty total equals the whole window difficulty receives
exactly the reward as proportional payout and the fee-adjusted reward as
final payout; the intermediate product reward times difficulty stays
strictly below 2 to the 128, so the u128 arithmetic does not truncate. -/
theorem calculate_payout_max_reward (fee days : Nat) (shares : List SimplePplnsShare)
    (a : String) (hfee : fee ≤ 10000) (hwd : 0 < windowDifficulty shares)
    (hwd64 : windowDifficulty shares < U64)
    (hall : minerDifficulty shares a = windowDifficulty shares) :
    2100000000000000 * minerDifficulty shares a < U128 ∧
    ∃ c, calculate_payout
        { block_reward_satoshis := 2100000000000000, pool_fee_bps := fee,
          pplns_window_days := days } shares a = some c ∧
      c.payout_satoshis = 2100000000000000 ∧
      c.final_payout_satoshis = 2100000000000000 - 2100000000000000 * fee / 10000 := by
  have hmne : shares.filter (fun s => s.btcaddress == some a) ≠ [] :=
    filter_ne_nil_of_pos (by rw [hall]; exact hwd)
  have hspec := calculate_payout_spec
    { block_reward_satoshis := 2100000000000000, pool_fee_bps := fee,
      pplns_window_days := days } shares a hfee (by norm_num [U64]) hwd hwd64 hmne
  have hprop : (2100000000000000 : Nat) * minerDifficulty shares a / windowDifficulty shares
      = 2100000000000000 := by
    rw [hall]
    exact Nat.mul_div_cancel _ hwd
  refine ⟨?_, _, hspec, ?_, ?_⟩
  · rw [hall, ← show U64 * U64 = U128 from by norm_num [U64, U128]]
    exact mul_lt_mul'' (by norm_num [U64]) hwd64 (Nat.zero_le _) (Nat.zero_le _)
  · exact hprop
  · show (2100000000000000 : Nat) * minerDifficulty shares a / windowDifficulty shares
      - ((2100000000000000 : Nat) * minerDifficulty shares a / windowDifficulty shares)
        * fee / 10000
      = 2100000000000000 - 2100000000000000 * fee / 10000
    rw [hprop]

/-- Witness for claim C4: a single share of the largest u64 difficulty,
fee 100 bps: proportional 2100000000000000, final 2079000000000000. -/
theorem calculate_payout_max_reward_witness :
    2100000000000000 * minerDifficulty sharesSolo "solo" < U128 ∧
    ∃ c, calculate_payout
        { block_reward_satoshis := 2100000000000000, pool_fee_bps := 100,
          pplns_window_days := 7 } sharesSolo "solo" = some c ∧
      c.payout_satoshis = 2100000000000000 ∧
      c.final_payout_satoshis = 2079000000000000 := by
  obtain ⟨h1, c, hc, h2, h3⟩ := calculate_payout_max_reward 100 7 sharesSolo "solo"
    (by decide) (by decide) (by decide) (by decide)
  refine ⟨h1, c, hc, h2, ?_⟩
  rw [h3]

/-- A wrapping u64 fold equals the plain sum while the sum stays below
the wrap: every partial sum is bounded by the total. -/
theorem wsum64_foldl (l : List Nat) : ∀ acc, acc + l.sum < U64 →
    l.foldl (fun a x => (a + x) % U64) acc = acc + l.sum := by
  induction l with
  | nil =>
    intro acc _
    simp
  | cons x rest ih =>
    intro acc h
    rw [List.sum_cons] at h
    rw [List.foldl_cons, List.sum_cons]
    have hx : acc + x < U64 := by omega
    rw [Nat.mod_eq_of_lt hx, ih (acc + x) (by omega)]
    omega

/-- wsum64 on a list whose exact sum fits in u64. -/
theorem wsum64_eq_sum (l : List Nat) (h : l.sum < U64) : wsum64 l = l.sum := by
  unfold wsum64
  rw [wsum64_foldl l 0 (by omega)]
  omega

/-- Claim C9: the simulated total payout is exactly the sum of the
individually computed final payouts (nothing is clamped), and the result
is valid, with an empty error list, exactly when that total stays within
the fee-adjusted block reward. The hypotheses delimit the no-wrap u64
regime in which the Nat sums of the model coincide with the wrapping u64
sums of the source: reward times fee_bps, the window difficulty sum, and
the final-payout total each stay below 2 to the 64. -/
theorem simulate_payouts_bound (sim : PplnsSimulator) (shares : List SimplePplnsShare)
    (hmul : sim.block_reward_satoshis * sim.pool_fee_bps < U64)
    (hwd : windowDifficulty shares < U64)
    (htot : (((((uniqueMiners shares).filterMap
      (fun a => calculate_payout sim shares a)).map (·.final_payout_satoshis)))).sum
      < U64) :
    (simulate_payouts sim shares).total_payout_satoshis
      = ((((simulate_payouts sim shares).payouts.map (·.final_payout_satoshis)))).sum ∧
    ((simulate_payouts sim shares).valid = true ↔
      (simulate_payouts sim shares).total_payout_satoshis
        ≤ sim.block_reward_satoshis - sim.block_reward_satoshis * sim.pool_fee_bps / 10000) ∧
    ((simulate_payouts sim shares).valid = true ↔
      (simulate_payouts sim shares).errors = []) := by
  unfold simulate_payouts
  dsimp only
  rw [Nat.mod_eq_of_lt hmul, wsum64_eq_sum _ htot]
  by_cases hgt : ((((uniqueMiners shares).filterMap
      (fun a => calculate_payout sim shares a)).map (·.final_payout_satoshis))).sum
      > sim.block_reward_satoshis - sim.block_reward_satoshis * sim.pool_fee_bps / 10000
  · rw [if_pos hgt]
    refine ⟨rfl, ?_, ?_⟩
    · constructor
      · intro h
        exact absurd h (by simp)
      · intro h
        exact absurd h (by omega)
    · constructor
      · intro h
        exact absurd h (by simp)
      · intro h
        exact absurd h (by simp)
  · rw [if_neg hgt]
    refine ⟨rfl, ?_, ?_⟩
    · constructor
      · intro _
        omega
      · intro _
        rfl
    · exact ⟨fun _ => rfl, fun _ => rfl⟩

/-- Witness for claim C9 at the example window and simulator. -/
theorem simulate_payouts_bound_witness :
    (simulate_payouts simT sharesT).total_payout_satoshis
      = ((((simulate_payouts simT sharesT).payouts.map (·.final_payout_satoshis)))).sum ∧
    ((simulate_payouts simT sharesT).valid = true ↔
      (simulate_payouts simT sharesT).total_payout_satoshis
        ≤ simT.block_reward_satoshis
          - simT.block_reward_satoshis * simT.pool_fee_bps / 10000) ∧
    ((simulate_payouts simT sharesT).valid = true ↔
      (simulate_payouts simT sharesT).errors = []) :=
  simulate_payouts_bound simT sharesT (by decide) (by decide) (by decide)

/-- Witness for claim C10: a concrete successful create_payout of 30
satoshis from a 50-satoshi balance over an empty history. -/
theorem create_payout_caps_history_witness :
    stW10.payouts.length ≤ max_payouts ∧
    stW10.payouts = (stT.payouts ++ [pW10]).drop (stT.payouts.length + 1 - max_payouts) :=
  create_payout_caps_history stT "m" 30 pW10 stW10 (by rfl)

/-- Counterexample to claim C8: a broadcast_payout call that fails
because wallet signing reports incomplete returns the error but leaves
the stored record Pending with an empty error field, instead of marking
it Failed with the message. -/
theorem broadcast_payout_failure_not_marked :
    (broadcast_payout PaymentConfig.default stT3 1 envSignIncomplete).1
      = Except.error PMError.signingIncomplete ∧
    (broadcast_payout PaymentConfig.default stT3 1 envSignIncomplete).2 = stT3 ∧
    (findPayout stT3.payouts 1).map (fun p => (p.status, p.error))
      = some (PayoutStatus.Pending, none) :=
  ⟨rfl, rfl, by decide⟩

/-- broadcast_payout never touches the balance map: no path debits,
credits or refunds a balance. -/
theorem broadcast_balances_unchanged (cfg : PaymentConfig) (st : PMState)
    (pid : Nat) (env : GatewayEnv) :
    ((broadcast_payout cfg st pid env).2).balances = st.balances := by
  unfold broadcast_payout
  repeat' first
  | rfl
  | split
  | dsimp only

/-- Every broadcast_payout call either keeps the state, or is the
empty-unspent failure, or succeeds: these are the only outcomes. -/
theorem broadcast_cases (cfg : PaymentConfig) (st : PMState) (pid : Nat)
    (env : GatewayEnv) :
    (broadcast_payout cfg st pid env).2 = st ∨
    (broadcast_payout cfg st pid env).1 = Except.error PMError.noUnspentOutputs ∨
    ∃ q, (broadcast_payout cfg st pid env).1 = Except.ok q := by
  unfold broadcast_payout
  repeat' first
  | exact Or.inl rfl
  | exact Or.inr (Or.inl rfl)
  | exact Or.inr (Or.inr ⟨_, rfl⟩)
  | split
  | dsimp only

/-- A broadcast_payout call that fails with any error other than the
no-spendable-outputs one leaves the whole state (stored payout records
included) unchanged. -/
theorem broadcast_error_state_unchanged (cfg : PaymentConfig) (st : PMState)
    (pid : Nat) (env : GatewayEnv) (e : PMError)
    (he : (broadcast_payout cfg st pid env).1 = Except.error e)
    (hne : e ≠ PMError.noUnspentOutputs) :
    (broadcast_payout cfg st pid env).2 = st := by
  rcases broadcast_cases cfg st pid env with h | h | h
  · exact h
  · rw [he] at h
    exact absurd (Except.error.inj h) hne
  · obtain ⟨q, hq⟩ := h
    rw [he] at hq
    exact Except.noConfusion hq

/-- Claim C8 amended: among the gateway failure modes only the
no-spendable-outputs case rewrites the stored record, setting status
Failed and recording the error message; every other failing call (dust,
RPC error, signing incomplete) leaves the state, stored record included,
unchanged; and no broadcast_payout call on any gateway outcome restores
(or otherwise changes) any balance. -/
theorem broadcast_payout_failed_mark (cfg : PaymentConfig) (st : PMState)
    (pid : Nat) (env env2 env3 : GatewayEnv) (p : Payout) (e2 : PMError)
    (hfind : findPayout st.payouts pid = some p)
    (hpend : p.status = PayoutStatus.Pending)
    (hempty : env.list_unspent = Except.ok [])
    (herr2 : (broadcast_payout cfg st pid env2).1 = Except.error e2)
    (hne2 : e2 ≠ PMError.noUnspentOutputs) :
    broadcast_payout cfg st pid env
      = (Except.error PMError.noUnspentOutputs,
         { st with payouts := updatePayout st.payouts pid (markNoUnspentFailed p) }) ∧
    (broadcast_payout cfg st pid env2).2 = st ∧
    ((broadcast_payout cfg st pid env3).2).balances = st.balances := by
  refine ⟨?_, broadcast_error_state_unchanged cfg st pid env2 e2 herr2 hne2,
    broadcast_balances_unchanged cfg st pid env3⟩
  unfold broadcast_payout
  rw [hfind, hempty]
  simp [hpend, markNoUnspentFailed]

/-- Witness for the amended claim C8: empty wallet on the concrete
pending payout, state preservation on a signing-incomplete failure, and
balance preservation on that same failing call. -/
theorem broadcast_payout_failed_mark_witness :
    (broadcast_payout PaymentConfig.default stT3 1 envNoUnspent
      = (Except.error PMError.noUnspentOutputs,
         { stT3 with
           payouts := updatePayout stT3.payouts 1 (markNoUnspentFailed (mkPendingPayout 1 "m" 30)) })) ∧
    (broadcast_payout PaymentConfig.default stT3 1 envSignIncomplete).2 = stT3 ∧
    ((broadcast_payout PaymentConfig.default stT3 1 envSignIncomplete).2).balances
      = stT3.balances :=
  broadcast_payout_failed_mark PaymentConfig.default stT3 1 envNoUnspent
    envSignIncomplete envSignIncomplete (mkPendingPayout 1 "m" 30)
    PMError.signingIncomplete (by rfl) (by rfl) (by rfl) (by rfl) (by decide)

/-- The counted-payout sum splits over list append. -/
theorem pendingAmounts_append (l1 l2 : List Payout) (a : String) :
    pendingAmounts (l1 ++ l2) a = pendingAmounts l1 a + pendingAmounts l2 a := by
  unfold pendingAmounts
  rw [List.filter_append, List.map_append, List.sum_append]

/-- add_earnings adds the amount (wrapping at U64) to the balance of the
one address and keeps every other lookup unchanged. -/
theorem balanceOf_add_earnings (st : PMState) (a : String) (amt h : Nat) (b : String) :
    balanceOf (add_earnings st a amt h) b
      = if b = a then (balanceOf st a + amt) % U64 else balanceOf st b := by
  unfold balanceOf add_earnings setBalance
  by_cases hba : b = a
  · subst hba
    simp only [if_pos rfl]
    cases st.balances b <;> rfl
  · simp only [if_neg hba]

/-- add_earnings and total_earned, same shape as the balance lemma. -/
theorem earnedOf_add_earnings (st : PMState) (a : String) (amt h : Nat) (b : String) :
    earnedOf (add_earnings st a amt h) b
      = if b = a then (earnedOf st a + amt) % U64 else earnedOf st b := by
  unfold earnedOf add_earnings setBalance
  by_cases hba : b = a
  · subst hba
    simp only [if_pos rfl]
    cases st.balances b <;> rfl
  · simp only [if_neg hba]

/-- add_earnings keeps the conservation invariant when the new
total_earned stays below the u64 wrap: both sides of the equation for
the touched address grow by the same amount. -/
theorem ConsInv_add_earnings {st : PMState} (hI : ConsInv st) (a : String)
    (amt h : Nat) (hno : earnedOf st a + amt < U64) :
    ConsInv (add_earnings st a amt h) := by
  intro b
  have hp : pendingSum (add_earnings st a amt h) b = pendingSum st b := rfl
  rw [hp, balanceOf_add_earnings, earnedOf_add_earnings]
  by_cases hba : b = a
  · rw [if_pos hba, if_pos hba, hba]
    have hIa := hI a
    have hbno : balanceOf st a + amt < U64 := by omega
    rw [Nat.mod_eq_of_lt hbno, Nat.mod_eq_of_lt hno]
    omega
  · rw [if_neg hba, if_neg hba]
    exact hI b

/-- An untrimmed create_payout keeps the conservation invariant: the
debit of the balance matches the new Pending record, and the payout list
grows by exactly one record. -/
theorem ConsInv_create_payout {st : PMState} {a : String} {amt : Nat}
    {p : Payout} {st2 : PMState} (hI : ConsInv st)
    (hlen : st.payouts.length < max_payouts)
    (h : create_payout st a amt = Except.ok (p, st2)) :
    ConsInv st2 ∧ st2.payouts.length = st.payouts.length + 1 ∧
    ∀ b, earnedOf st2 b = earnedOf st b := by
  obtain ⟨bal, hb, hle, hp, hbal, hpay, _⟩ := create_payout_ok_inv h
  have hpushlen : (st.payouts ++ [p]).length = st.payouts.length + 1 := by simp
  have hnotrim : ¬ ((st.payouts ++ [p]).length > max_payouts) := by omega
  rw [if_neg hnotrim] at hpay
  have hearnAll : ∀ b, earnedOf st2 b = earnedOf st b := by
    intro b
    unfold earnedOf
    rw [hbal]
    unfold setBalance
    by_cases hba : b = a
    · simp only [if_pos hba]
      have hgl : earnedOf st b = bal.total_earned_satoshis := by
        unfold earnedOf
        rw [hba, hb]
      exact hgl.symm
    · simp only [if_neg hba]
  refine ⟨?_, by rw [hpay, hpushlen], hearnAll⟩
  intro b
  have hps : pendingSum st2 b
      = pendingSum st b + pendingAmounts [p] b := by
    unfold pendingSum
    rw [hpay, pendingAmounts_append]
  have hsingle : pendingAmounts [p] b = if b = a then amt else 0 := by
    subst hp
    by_cases hba : b = a
    · subst hba
      simp [pendingAmounts, mkPendingPayout, statusCounted]
    · have hab : a ≠ b := fun hh => hba hh.symm
      simp [pendingAmounts, mkPendingPayout, statusCounted, hba, hab]
  have hbalb : balanceOf st2 b = if b = a then bal.balance_satoshis - amt else balanceOf st b := by
    unfold balanceOf
    rw [hbal]
    unfold setBalance
    by_cases hba : b = a
    · simp [hba]
    · simp [hba]
  rw [hps, hsingle, hbalb, hearnAll b]
  by_cases hba : b = a
  · rw [if_pos hba, if_pos hba]
    have hIa := hI a
    have hbA : balanceOf st a = bal.balance_satoshis := by
      unfold balanceOf
      rw [hb]
    rw [hba]
    rw [hbA] at hIa
    omega
  · rw [if_neg hba, if_neg hba]
    have := hI b
    omega

/-- Counting payout calls: an earning at the head adds nothing. -/
theorem countPayoutOps_earn (a : String) (amt h : Nat) (rest : List LedgerOp) :
    countPayoutOps (LedgerOp.earn a amt h :: rest) = countPayoutOps rest := by
  unfold countPayoutOps
  rw [List.filter_cons]
  rfl

/-- Counting payout calls: a payout call at the head adds one. -/
theorem countPayoutOps_payout (a : String) (amt : Nat) (rest : List LedgerOp) :
    countPayoutOps (LedgerOp.payout a amt :: rest) = countPayoutOps rest + 1 := by
  unfold countPayoutOps
  rw [List.filter_cons]
  simp [List.length_cons]

/-- Total earnings: an earning at the head adds its amount. -/
theorem earnSum_earn (a : String) (amt h : Nat) (rest : List LedgerOp) :
    earnSum (LedgerOp.earn a amt h :: rest) = amt + earnSum rest := by
  unfold earnSum
  rw [List.map_cons, List.sum_cons]

/-- Total earnings: a payout call at the head adds nothing. -/
theorem earnSum_payout (a : String) (amt : Nat) (rest : List LedgerOp) :
    earnSum (LedgerOp.payout a amt :: rest) = earnSum rest := by
  unfold earnSum
  rw [List.map_cons, List.sum_cons]
  dsimp only
  omega

/-- Running any history whose payout-call budget fits under max_payouts
and whose earnings budget stays below the u64 wrap, from a conserving
state, keeps the conservation invariant. -/
theorem runFrom_ConsInv (ops : List LedgerOp) : ∀ (st : PMState), ConsInv st →
    st.payouts.length + countPayoutOps ops ≤ max_payouts →
    (∀ a, earnedOf st a + earnSum ops < U64) →
    ConsInv (ops.foldl runStep st) := by
  induction ops with
  | nil => intro st hI _ _; exact hI
  | cons op rest ih =>
    intro st hI hlen hearn
    rw [List.foldl_cons]
    cases op with
    | earn a amt h =>
      rw [countPayoutOps_earn] at hlen
      have hsa := hearn a
      rw [earnSum_earn] at hsa
      have hnoA : earnedOf st a + amt < U64 := by omega
      refine ih (add_earnings st a amt h)
        (ConsInv_add_earnings hI a amt h hnoA) hlen ?_
      intro b
      rw [earnedOf_add_earnings]
      by_cases hba : b = a
      · rw [if_pos hba, Nat.mod_eq_of_lt hnoA]
        omega
      · rw [if_neg hba]
        have hsb := hearn b
        rw [earnSum_earn] at hsb
        omega
    | payout a amt =>
      rw [countPayoutOps_payout] at hlen
      cases hc : create_payout st a amt with
      | error e =>
        have hrs : runStep st (LedgerOp.payout a amt) = st := by
          show (match create_payout st a amt with
            | Except.ok (_, s2) => s2
            | Except.error _ => st) = st
          rw [hc]
        rw [hrs]
        refine ih st hI (by omega) ?_
        intro b
        have hsb := hearn b
        rw [earnSum_payout] at hsb
        exact hsb
      | ok pr =>
        obtain ⟨p, st2⟩ := pr
        have hrs : runStep st (LedgerOp.payout a amt) = st2 := by
          show (match create_payout st a amt with
            | Except.ok (_, s2) => s2
            | Except.error _ => st) = st2
          rw [hc]
        obtain ⟨hI2, hl2, hE2⟩ := ConsInv_create_payout hI (by omega) hc
        rw [hrs]
        refine ih st2 hI2 (by omega) ?_
        intro b
        rw [hE2 b]
        have hsb := hearn b
        rw [earnSum_payout] at hsb
        exact hsb

/-- Claim C2 amended: for any ledger history with at most 10000
create_payout calls (so the trim of the payout list never fires) and
whose earned amounts sum below 2 to the 64 (so the wrapping u64
additions of add_earnings never wrap), every address satisfies the
conservation equation after the run; prefixes of such a history are
themselves such histories, so the equation holds after every call. -/
theorem conservation_bounded (ops : List LedgerOp)
    (h : countPayoutOps ops ≤ max_payouts)
    (hE : earnSum ops < U64) (a : String) :
    conservesClaim (runOps ops) a := by
  have hI : ConsInv (runOps ops) := by
    unfold runOps
    refine runFrom_ConsInv ops initialState (fun b => rfl) ?_ ?_
    · have h0 : initialState.payouts.length = 0 := rfl
      omega
    · intro b
      have h0 : earnedOf initialState b = 0 := rfl
      omega
  have := hI a
  unfold conservesClaim
  omega

/-- Witness for the amended claim C2: earn 100, create a 30-satoshi
payout; the remaining balance 70 equals 100 minus 30. -/
theorem conservation_bounded_witness : conservesClaim (runOps opsW) "a" :=
  conservation_bounded opsW (by decide) (by decide) "a"

/-- A list of one-satoshi Pending records of one address contributes its
length to the counted-payout sum. -/
theorem pendingAmounts_units (l : List Payout) (a : String)
    (h : ∀ p ∈ l, p.address = a ∧ p.amount_satoshis = 1 ∧
      p.status = PayoutStatus.Pending) :
    pendingAmounts l a = l.length := by
  induction l with
  | nil => rfl
  | cons p rest ih =>
    obtain ⟨hpa, hpam, hpst⟩ := h p (List.mem_cons_self p rest)
    have hrest := ih (fun q hq => h q (List.mem_cons_of_mem p hq))
    unfold pendingAmounts
    rw [List.filter_cons]
    have hpred : (p.address == a && statusCounted p.status) = true := by
      rw [hpa, hpst]
      simp [statusCounted]
    rw [if_pos hpred]
    unfold pendingAmounts at hrest
    simp only [List.map_cons, List.sum_cons, List.length_cons, hpam, hrest]
    omega

/-- Reading back the updated key of setBalance. -/
theorem setBalance_same (f : String → Option MinerBalance) (a : String)
    (b : MinerBalance) : setBalance f a b a = some b := by
  unfold setBalance
  rw [if_pos rfl]

/-- State description along the drain history: after k of the 10001
one-satoshi payout calls the balance record reads 10001 - k with
total_earned 10001, and the stored list holds min k 10000 records, all
one-satoshi Pending records of address a. -/
theorem drainState_spec (k : Nat) (hk : k ≤ 10001) :
    (drainState k).balances "a" = some (drainBalance k) ∧
    (drainState k).payouts.length = min k max_payouts ∧
    ∀ p ∈ (drainState k).payouts,
      p.address = "a" ∧ p.amount_satoshis = 1 ∧ p.status = PayoutStatus.Pending := by
  induction k with
  | zero =>
    refine ⟨rfl, rfl, ?_⟩
    intro p hp
    exact absurd hp (List.not_mem_nil p)
  | succ k ih =>
    obtain ⟨hbal, hlen, hall⟩ := ih (by omega)
    have hstep : drainState (k + 1) = runStep (drainState k) (LedgerOp.payout "a" 1) := by
      unfold drainState
      rw [List.replicate_succ', List.foldl_append]
      rfl
    have hpos : ¬ ((drainBalance k).balance_satoshis < 1) := by
      dsimp only [drainBalance]
      omega
    cases hc : create_payout (drainState k) "a" 1 with
    | error e =>
      exfalso
      unfold create_payout at hc
      rw [hbal] at hc
      dsimp only at hc
      rw [if_neg hpos] at hc
      exact absurd hc (by simp)
    | ok pr =>
      obtain ⟨p, st2⟩ := pr
      obtain ⟨bal, hb, hle, hp, hbal2, hpay2, _⟩ := create_payout_ok_inv hc
      rw [hbal] at hb
      have hbeq : bal = drainBalance k := (Option.some.inj hb).symm
      subst hbeq
      have hrs : runStep (drainState k) (LedgerOp.payout "a" 1) = st2 := by
        show (match create_payout (drainState k) "a" 1 with
          | Except.ok (_, s2) => s2
          | Except.error _ => drainState k) = st2
        rw [hc]
      rw [hstep, hrs]
      refine ⟨?_, ?_, ?_⟩
      · rw [hbal2, setBalance_same]
        simp only [drainBalance, Option.some.injEq, MinerBalance.mk.injEq]
        exact ⟨trivial, by omega, trivial, trivial, trivial⟩
      · rw [hpay2]
        have hpushlen : ((drainState k).payouts ++ [p]).length
            = (drainState k).payouts.length + 1 := by simp
        by_cases htrim : ((drainState k).payouts ++ [p]).length > max_payouts
        · rw [if_pos htrim, List.length_drop]
          unfold max_payouts at hlen htrim ⊢
          omega
        · rw [if_neg htrim, hpushlen]
          unfold max_payouts at hlen htrim ⊢
          omega
      · intro q hq
        rw [hpay2] at hq
        clear hc hrs hstep
        have hq2 : q ∈ (drainState k).payouts ++ [p] := by
          by_cases htrim : ((drainState k).payouts ++ [p]).length > max_payouts
          · rw [if_pos htrim] at hq
            exact List.drop_subset _ _ hq
          · rw [if_neg htrim] at hq
            exact hq
        rcases List.mem_append.mp hq2 with hq3 | hq3
        · exact hall q hq3
        · have : q = p := by
            cases hq3 with
            | head => rfl
            | tail _ hx => exact absurd hx (List.not_mem_nil q)
          subst this
          subst hp
          exact ⟨rfl, rfl, rfl⟩

/-- balanceOf through a known lookup. -/
theorem balanceOf_lookup (st : PMState) (a : String) (b : MinerBalance)
    (h : st.balances a = some b) : balanceOf st a = b.balance_satoshis := by
  unfold balanceOf
  rw [h]

/-- earnedOf through a known lookup. -/
theorem earnedOf_lookup (st : PMState) (a : String) (b : MinerBalance)
    (h : st.balances a = some b) : earnedOf st a = b.total_earned_satoshis := by
  unfold earnedOf
  rw [h]

/-- Counterexample to claim C2: after the drain history (one earning of
10001 satoshis, then 10001 one-satoshi payout creations) the stored
records for address a sum to 10000 because the oldest Pending record was
trimmed, while balance is 0 and total_earned is 10001, so the
conservation equation fails on the stored records. -/
theorem conservation_fails_after_trim : ¬ conservesClaim (runOps drainOps) "a" := by
  have hrun : runOps drainOps = drainState 10001 := by
    unfold runOps drainOps drainState
    rw [List.foldl_cons]
  obtain ⟨hbal, hlen, hall⟩ := drainState_spec 10001 (le_refl 10001)
  have hps : pendingSum (drainState 10001) "a"
      = (drainState 10001).payouts.length :=
    pendingAmounts_units (drainState 10001).payouts "a" hall
  have hb0 : balanceOf (drainState 10001) "a" = 0 := by
    rw [balanceOf_lookup _ _ _ hbal]
    rfl
  have he : earnedOf (drainState 10001) "a" = 10001 := by
    rw [earnedOf_lookup _ _ _ hbal]
    rfl
  unfold conservesClaim
  rw [hrun, hb0, he, hps, hlen]
  unfold max_payouts
  omega

end Dmpool
